import Mathlib

/-!
Verification of the Neon Core Defense simulation core.

The JavaScript source is embedded shallowly: JS numbers become `ℚ`
(exact rational arithmetic; IEEE floating rounding is out of scope),
`Math.floor` becomes `Int.floor`, mutable objects become explicit state
records, and `Math.random()` draws become explicit rational parameters
`r` with `0 ≤ r < 1`.  Each definition is translated from the named
source function; rendering-only side effects (particles, screen shake,
DOM writes, floating text contents) are omitted as they touch no state
read back by the simulation.
-/

namespace NeonCore

/-! ## Configuration constants (src/js/data/config.js) -/

def MIN_SPAWN_RATE : ℚ := 250
def SPAWN_RATE_DECREASE_PER_LEVEL : ℚ := 18
def CRIT_DAMAGE_MULTIPLIER : ℚ := 5/2
def PRESTIGE_MULT_PER_BYTE : ℚ := 1/4

/-! ## Core-damage path (src/js/main.js `takeDamage`, `gameOver`)

`World` carries the fields of the global `state` aggregate that the
core-damage path reads or writes, plus a call counter for `gameOver()`
so that "triggered exactly once" becomes statable. -/

structure World where
  coreHp : ℚ
  maxCoreHp : ℚ
  money : ℚ
  gameOverCalls : ℕ
  gameOver : Bool
  isPlaying : Bool
  deriving DecidableEq

/-- `gameOver()` (src/js/main.js:1771): sets the flags; UI calls omitted.
`gameOverCalls` counts invocations. -/
def gameOverFn (w : World) : World :=
  { w with gameOver := true, isPlaying := false,
           gameOverCalls := w.gameOverCalls + 1 }

/-- `takeDamage(amount)` (src/js/main.js:1727): subtracts `amount` from
`state.coreHp` with no clamping, then calls `gameOver()` when the result
is `≤ 0`.  Screen-shake/flash/audio side effects omitted; `updateHpBar`
clamps only the displayed percentage, not the state field. -/
def takeDamage (amount : ℚ) (w : World) : World :=
  let w' := { w with coreHp := w.coreHp - amount }
  if w'.coreHp ≤ 0 then gameOverFn w' else w'

/-! ## Enemy boundary crossing (src/js/engine/Enemy.js `update`, lines 534-560)

Only the movement tail and the core-boundary block of `Enemy.update` are
embedded; type-specific behaviour, trails and bobbing above it neither
read nor write the fields below.  In the assembled game the globals
`state`, `onEnemyKill`, `takeDamage` all exist, so the `typeof` guards
around the block are taken as true. -/

structure EnemyE where
  x : ℚ
  y : ℚ
  size : ℚ
  hp : ℚ
  maxHp : ℚ
  bits : ℚ
  speed : ℚ
  frozen : ℚ
  armor : ℚ
  isEpicBossShielded : Bool
  markedForDeletion : Bool
  isDying : Bool
  deriving DecidableEq

/-- Movement + boundary check of `Enemy.update`:
`const currentSpeed = this.frozen > 0 ? 0 : this.speed;`
`this.x -= currentSpeed * (dt / 16);`
`if (this.x < 60) { takeDamage(this.hp); state.money += Math.floor(this.bits * 0.5); this.markedForDeletion = true; }` -/
def enemyUpdateBoundary (dt : ℚ) (e : EnemyE) (w : World) : EnemyE × World :=
  let currentSpeed := if e.frozen > 0 then 0 else e.speed
  let e' := { e with x := e.x - currentSpeed * (dt / 16) }
  if e'.x < 60 then
    let w1 := takeDamage e'.hp w
    let sacrificeBits : ℚ := (⌊e'.bits * (1/2)⌋ : ℤ)
    let w2 := { w1 with money := w1.money + sacrificeBits }
    ({ e' with markedForDeletion := true }, w2)
  else
    (e', w)

/-- `updateEntities` (src/js/main.js): `enemies.forEach(e => e.update(...))`.
Each enemy is updated in order against the shared world; no per-enemy
game-over check exists inside the loop. -/
def updateEnemies (dt : ℚ) (es : List EnemyE) (w : World) : List EnemyE × World :=
  match es with
  | [] => ([], w)
  | e :: rest =>
      let (e', w') := enemyUpdateBoundary dt e w
      let (rest', w'') := updateEnemies dt rest w'
      (e' :: rest', w'')

/-! ## Spawner (src/js/systems/spawner.js `updateSpawner`) -/

structure SpawnState where
  spawnTimer : ℚ
  spawnRate : ℚ
  level : ℚ
  enemyCount : ℕ
  deriving DecidableEq

/-- `updateSpawner(dt, state, enemies, ..., paceMultiplier)`: decrements
the timer; at `≤ 0` pushes one enemy (modelled as `enemyCount + 1`) and
recomputes the timer as
`max(MIN, state.spawnRate - level*DECREASE)` re-clamped after the pace
multiplication: `max(MIN, baseRate * paceMultiplier)`. -/
def updateSpawner (dt : ℚ) (s : SpawnState) (paceMultiplier : ℚ) : SpawnState :=
  let s := { s with spawnTimer := s.spawnTimer - dt }
  if s.spawnTimer ≤ 0 then
    let baseRate := max MIN_SPAWN_RATE
      (s.spawnRate - s.level * SPAWN_RATE_DECREASE_PER_LEVEL)
    let adjustedRate := max MIN_SPAWN_RATE (baseRate * paceMultiplier)
    { s with enemyCount := s.enemyCount + 1, spawnTimer := adjustedRate }
  else s

/-! ## Concrete instances used by the claim scenarios -/

/-- Concrete enemy about to cross the boundary with 10 hp. -/
def crossingEnemy : EnemyE :=
  { x := 60, y := 300, size := 20, hp := 10, maxHp := 10, bits := 7,
    speed := 10, frozen := 0, armor := 0, isEpicBossShielded := false,
    markedForDeletion := false, isDying := false }

/-- World with 5 core hp, about to be overkilled. -/
def lowHpWorld : World :=
  { coreHp := 5, maxCoreHp := 100, money := 0, gameOverCalls := 0,
    gameOver := false, isPlaying := true }

/-! ## Combat resolver (src/js/systems/combat.js)

`getDamage(source, upgrades, gameState)` reads three run-upgrade
valuations (`clickDmg`, `autoDmg`, `critChance`: `u.getVal(u.count)`),
three permanent-upgrade valuations (`clickBonus`, `autoDmgPerm`,
`critChancePerm`) and the aggregated skill-tree effects; these resolved
values are the fields below. -/

structure UpgradeVals where
  clickDmgVal : ℚ
  autoDmgVal : ℚ
  critChanceVal : ℚ
  deriving DecidableEq

structure PermVals where
  clickBonus : ℚ
  autoDmgPerm : ℚ
  critChancePerm : ℚ
  deriving DecidableEq

/-- The fields of `getSkillTreeEffects()` read by the combat resolver. -/
structure SkillEffects where
  allDamageMult : ℚ
  clickDamage : ℚ
  turretDamage : ℚ
  critChance : ℚ
  omegaCritDamage : ℚ
  lifesteal : ℚ
  deriving DecidableEq

inductive Source where
  | click
  | auto
  deriving DecidableEq

/-- `getDamage` (src/js/systems/combat.js:6-93), with the `Math.random()`
draw passed as `r ∈ [0,1)`.  JS truthiness: the skill-tree multipliers are
applied only under the source's exact guards
(`skillEffects.allDamageMult && !== 1`, `> 0` gates). -/
def getDamage (source : Source) (u : UpgradeVals) (perms : PermVals)
    (fx : SkillEffects) (prestigeCurrency r : ℚ) : ℚ × Bool :=
  let prestigeMult := 1 + prestigeCurrency * PRESTIGE_MULT_PER_BYTE
  let val : ℚ :=
    match source with
    | .click => u.clickDmgVal
    | .auto => u.autoDmgVal
  let val : ℚ :=
    match source with
    | .click => val + perms.clickBonus
    | .auto => val
  let val : ℚ :=
    match source with
    | .click => val
    | .auto => val * (1 + perms.autoDmgPerm)
  let chance := u.critChanceVal + perms.critChancePerm
  let chance := if fx.critChance > 0 then chance + fx.critChance else chance
  let isCrit := decide (r * 100 < chance)
  let val := if isCrit then val * CRIT_DAMAGE_MULTIPLIER else val
  let val := val * prestigeMult
  let val := if fx.allDamageMult ≠ 0 ∧ fx.allDamageMult ≠ 1 then val * fx.allDamageMult else val
  let val : ℚ :=
    match source with
    | .click => if fx.clickDamage > 0 then val + fx.clickDamage else val
    | .auto => val
  let val : ℚ :=
    match source with
    | .click => val
    | .auto => if fx.turretDamage > 0 then val + fx.turretDamage else val
  let val := if isCrit ∧ fx.omegaCritDamage > 0 then val * (1 + fx.omegaCritDamage) else val
  (val, isCrit)

/-- Written from claim C2's wording, for comparison with `getDamage`:
base → permanent flat (click) / permanent multiplier (auto) → crit roll
against the summed chance and crit multiply → prestige multiply →
skill-tree all-damage multiply → skill-tree source flat add →
skill-tree crit-damage multiply (crit only). -/
def getDamageSpecOrder (source : Source) (u : UpgradeVals) (perms : PermVals)
    (fx : SkillEffects) (prestigeCurrency r : ℚ) : ℚ × Bool :=
  let base : ℚ :=
    match source with
    | .click => u.clickDmgVal
    | .auto => u.autoDmgVal
  let v1 : ℚ :=
    match source with
    | .click => base + perms.clickBonus
    | .auto => base * (1 + perms.autoDmgPerm)
  let chance := u.critChanceVal + perms.critChancePerm + fx.critChance
  let isCrit := decide (r * 100 < chance)
  let v2 := if isCrit then v1 * CRIT_DAMAGE_MULTIPLIER else v1
  let v3 := v2 * (1 + prestigeCurrency * PRESTIGE_MULT_PER_BYTE)
  let v4 := v3 * fx.allDamageMult
  let v5 : ℚ := v4 +
    match source with
    | .click => fx.clickDamage
    | .auto => fx.turretDamage
  let v6 := if isCrit then v5 * (1 + fx.omegaCritDamage) else v5
  (v6, isCrit)

/-! ## `hitEnemy` (src/js/systems/combat.js:95-149) -/

structure DamageInfo where
  damage : ℚ
  isCrit : Bool
  deriving DecidableEq

structure HitOutcome where
  enemy : EnemyE
  world : World
  applied : ℚ
  killed : Bool
  deriving DecidableEq

/-- `hitEnemy(enemy, damageInfo, floaters)`: epic-boss shield halves (and
floors) the damage; armor subtracts but never below 1; hp is decremented;
skill-tree lifesteal heals the core clamped at `maxCoreHp`; returns `true`
exactly when hp first crosses `≤ 0` (then `startDeathAnimation()` sets
`isDying`).  Particles/floating text omitted; `applied` records the final
subtracted damage. -/
def hitEnemy (fx : SkillEffects) (e : EnemyE) (dmg : DamageInfo) (w : World) :
    HitOutcome :=
  let damage := dmg.damage
  let damage := if e.isEpicBossShielded then ((⌊damage * (1/2)⌋ : ℤ) : ℚ) else damage
  let damage := if e.armor > 0 then max 1 (damage - e.armor) else damage
  let e := { e with hp := e.hp - damage }
  let w :=
    if fx.lifesteal > 0 ∧ w.coreHp < w.maxCoreHp then
      { w with coreHp := min w.maxCoreHp (w.coreHp + damage * fx.lifesteal) }
    else w
  if e.hp ≤ 0 ∧ e.isDying = false then
    ⟨{ e with isDying := true }, w, damage, true⟩
  else
    ⟨e, w, damage, false⟩

/-- Armored target for the C6 scenario. -/
def armoredEnemy : EnemyE :=
  { x := 300, y := 300, size := 20, hp := 50, maxHp := 50, bits := 5,
    speed := 1, frozen := 0, armor := 5, isEpicBossShielded := false,
    markedForDeletion := false, isDying := false }

/-- Skill effects with no purchased combat/defense nodes. -/
def noSkillFx : SkillEffects := ⟨1, 0, 0, 0, 0, 0⟩

/-! ## Projectile hit resolution (src/js/engine/Projectile.js)

Enemies are carried as `(id, enemy)` pairs standing for the JS object
references in the global `enemies` array; callers supply distinct ids.
`ProjWorld` adds to the game state the two event sinks the claims are
about: `killEvents` (the calls into `onEnemyKill`, the kill/currency
path) and `damageLog` (the floating damage-number sink `floaters` fed by
`hitEnemy`, recording the applied damage of each resolved hit in order). -/

structure ProjWorld where
  world : World
  killEvents : List ℕ
  damageLog : List (ℕ × ℚ)
  deriving DecidableEq

/-- `onEnemyKill(enemy, state)` (src/js/systems/spawner.js:24): credits
`state.money += enemy.bits` and is the kill-event entry point (kill
counter, rare-currency drop rolls and level-up are downstream of this
call and not read by the projectile claims). -/
def onEnemyKillModel (i : ℕ) (e : EnemyE) (pw : ProjWorld) : ProjWorld :=
  { pw with world := { pw.world with money := pw.world.money + e.bits },
            killEvents := pw.killEvents ++ [i] }

/-- `Math.hypot(dx, dy) < r`, squared to stay in ℚ (equivalent: the
nonnegative root is below `r` iff `r ≥ 0` and `dx² + dy² < r²`). -/
def circleHit (dx dy r : ℚ) : Bool :=
  decide (0 ≤ r ∧ dx * dx + dy * dy < r * r)

/-- The direct-hit portion of `Projectile.hitWithMultiplier`:
`const killed = hitEnemy(enemy, dmgInfo, resolvedFloaters); if (killed) onEnemyKill(enemy, resolvedState)`;
applied to the first list entry whose id is the target's. -/
def hitTargetById (fx : SkillEffects) (t : ℕ) (dmg : DamageInfo) :
    List (ℕ × EnemyE) → ProjWorld → List (ℕ × EnemyE) × ProjWorld × Bool
  | [], pw => ([], pw, false)
  | (i, e) :: rest, pw =>
      if i = t then
        let out := hitEnemy fx e dmg pw.world
        let pw := { pw with world := out.world,
                            damageLog := pw.damageLog ++ [(i, out.applied)] }
        let pw := if out.killed then onEnemyKillModel i out.enemy pw else pw
        ((i, out.enemy) :: rest, pw, out.killed)
      else
        let r := hitTargetById fx t dmg rest pw
        ((i, e) :: r.1, r.2.1, r.2.2)

/-- The AoE pass of `Projectile.hitWithMultiplier` (lines 367-377):
`enemies.forEach(e => { if (e === enemy || e.markedForDeletion || e.isDying) return; const d = Math.hypot(e.x - this.x, e.y - this.y); if (d < this.blastRadius + e.size) { const killed = hitEnemy(e, aoeDmg, ...); if (killed) onEnemyKill(e, ...); } })`. -/
def aoeHitEnemies (fx : SkillEffects) (px py blastRadius : ℚ) (t : ℕ)
    (aoeDmg : DamageInfo) :
    List (ℕ × EnemyE) → ProjWorld → List (ℕ × EnemyE) × ProjWorld
  | [], pw => ([], pw)
  | (i, e) :: rest, pw =>
      if i = t ∨ e.markedForDeletion = true ∨ e.isDying = true then
        let r := aoeHitEnemies fx px py blastRadius t aoeDmg rest pw
        ((i, e) :: r.1, r.2)
      else if circleHit (e.x - px) (e.y - py) (blastRadius + e.size) then
        let out := hitEnemy fx e aoeDmg pw.world
        let pw := { pw with world := out.world,
                            damageLog := pw.damageLog ++ [(i, out.applied)] }
        let pw := if out.killed then onEnemyKillModel i out.enemy pw else pw
        let r := aoeHitEnemies fx px py blastRadius t aoeDmg rest pw
        ((i, out.enemy) :: r.1, r.2)
      else
        let r := aoeHitEnemies fx px py blastRadius t aoeDmg rest pw
        ((i, e) :: r.1, r.2)

/-- The globals `getDamage` reads: run upgrades, permanent upgrades,
skill-tree effects and `state.prestigeCurrency`. -/
structure CombatParams where
  u : UpgradeVals
  perms : PermVals
  fx : SkillEffects
  prestigeCurrency : ℚ
  deriving DecidableEq

/-- Projectile fields read by the hit/pierce paths. -/
structure Proj where
  x : ℚ
  y : ℚ
  vx : ℚ
  vy : ℚ
  size : ℚ
  isAuto : Bool
  damageMult : ℚ
  blastRadius : ℚ
  piercing : Bool
  pierceCount : ℕ
  damageDecay : ℚ
  piercedEnemies : List ℕ
  bouncesLeft : ℤ
  markedForDeletion : Bool
  screenWidth : ℚ
  deriving DecidableEq

/-- `Projectile.hitWithMultiplier(enemy, multiplier)` (lines 322-384):
rolls `getDamage` (draw `r1`), floors the damage through `multiplier`
when it is not 1, resolves the direct hit (and its `onEnemyKill`), marks
the projectile unless it is piercing or has bounces left, and — when
`blastRadius > 0` — rolls `getDamage` AGAIN (draw `r2`) and deals half of
that fresh roll to every other live enemy within the blast radius. -/
def hitWithMultiplier (p : Proj) (t : ℕ) (multiplier : ℚ) (cp : CombatParams)
    (r1 r2 : ℚ) (es : List (ℕ × EnemyE)) (pw : ProjWorld) :
    Proj × List (ℕ × EnemyE) × ProjWorld :=
  let src : Source := if p.isAuto then .auto else .click
  let roll := getDamage src cp.u cp.perms cp.fx cp.prestigeCurrency r1
  let dmgInfo : DamageInfo :=
    if multiplier ≠ 1 then ⟨((⌊roll.1 * multiplier⌋ : ℤ) : ℚ), roll.2⟩
    else ⟨roll.1, roll.2⟩
  let hitRes := hitTargetById cp.fx t dmgInfo es pw
  let es := hitRes.1
  let pw := hitRes.2.1
  let p := if p.piercing = false ∧ p.bouncesLeft ≤ 0 then
      { p with markedForDeletion := true } else p
  if p.blastRadius > 0 then
    let roll2 := getDamage src cp.u cp.perms cp.fx cp.prestigeCurrency r2
    let aoeDmg : DamageInfo := ⟨roll2.1 * (1/2), false⟩
    let aoeRes := aoeHitEnemies cp.fx p.x p.y p.blastRadius t aoeDmg es pw
    (p, aoeRes.1, aoeRes.2)
  else
    (p, es, pw)

/-- The collision loop of `Projectile.updatePiercing` (lines 156-179):
walks the enemies in array order; skips dead/dying and already-pierced
ones; on overlap records the enemy, applies
`hitWithMultiplier(enemy, damageDecay^(piercedEnemies.length - 1))`, and
returns immediately (skipping the rest of the array and the off-screen
check) once `piercedEnemies.length >= pierceCount`, marking the
projectile for deletion.  `rs` is the `Math.random()` stream, `k` the
index of the next unconsumed draw (a hit consumes one draw, or two when
`blastRadius > 0`).  `damageDecay ^ (length - 1)` is the exact-rational
stand-in for `Math.pow`; see `pierceHitDamage` for the rounding caveat. -/
def pierceLoop (cp : CombatParams) (rs : ℕ → ℚ) (canvasHeight : ℚ) :
    List ℕ → Proj → List (ℕ × EnemyE) → ProjWorld → ℕ →
      Proj × List (ℕ × EnemyE) × ProjWorld
  | [], p, es, pw, _ =>
      let p := if p.x > p.screenWidth + 50 ∨ p.y < -50 ∨ p.y > canvasHeight + 50 then
          { p with markedForDeletion := true } else p
      (p, es, pw)
  | i :: rest, p, es, pw, k =>
      match (es.find? (fun x => x.1 = i)).map Prod.snd with
      | none => pierceLoop cp rs canvasHeight rest p es pw k
      | some e =>
          if e.markedForDeletion = true ∨ e.isDying = true then
            pierceLoop cp rs canvasHeight rest p es pw k
          else if i ∈ p.piercedEnemies then
            pierceLoop cp rs canvasHeight rest p es pw k
          else if circleHit (e.x - p.x) (e.y - e.size / 2 - p.y) (e.size + p.size) then
            let p := { p with piercedEnemies := p.piercedEnemies ++ [i] }
            let decayFactor := p.damageDecay ^ (p.piercedEnemies.length - 1)
            let hit := hitWithMultiplier p i decayFactor cp (rs k) (rs (k + 1)) es pw
            let p := hit.1
            let es := hit.2.1
            let pw := hit.2.2
            let k := if p.blastRadius > 0 then k + 2 else k + 1
            if p.pierceCount ≤ p.piercedEnemies.length then
              ({ p with markedForDeletion := true }, es, pw)
            else
              pierceLoop cp rs canvasHeight rest p es pw k
          else
            pierceLoop cp rs canvasHeight rest p es pw k

/-- `Projectile.updatePiercing(dt, enemies)` (lines 151-193): moves the
projectile, then runs the collision loop over the enemies in order. -/
def updatePiercing (dt : ℚ) (p : Proj) (es : List (ℕ × EnemyE))
    (cp : CombatParams) (rs : ℕ → ℚ) (canvasHeight : ℚ) (pw : ProjWorld) :
    Proj × List (ℕ × EnemyE) × ProjWorld :=
  let p := { p with x := p.x + p.vx * (dt / 16), y := p.y + p.vy * (dt / 16) }
  pierceLoop cp rs canvasHeight (es.map Prod.fst) p es pw 0

/-- The damage dealt on a pierce hit resolved with `multiplier`:
`hitWithMultiplier` floors `roll * multiplier` except when the multiplier
is exactly 1 (`if (multiplier !== 1) dmgInfo.damage = Math.floor(...)`).
This is the exact-rational idealization of the IEEE-double computation
`Math.floor(damage * Math.pow(decay, n))`: rounding of the double product
can land the program's floor one unit away from the rational floor when
the product lies within rounding distance of an integer (for instance
`100 * Math.pow(0.7, 2)` is `48.99999999999999` in doubles and floors to
48, while the rational floor of `100 × 0.49` is 49).  The claim theorems
therefore assert floored hit values only within unit-wide brackets, never
to the exact integer, except where the double and rational results
provably coincide. -/
def pierceHitDamage (roll multiplier : ℚ) : ℚ :=
  if multiplier ≠ 1 then ((⌊roll * multiplier⌋ : ℤ) : ℚ) else roll

/-! ## Concrete instances for the piercing scenario -/

/-- An armorless enemy sitting in the projectile's path. -/
def pathEnemy : EnemyE :=
  { x := 130, y := 310, size := 20, hp := 1000, maxHp := 1000, bits := 1,
    speed := 1, frozen := 0, armor := 0, isEpicBossShielded := false,
    markedForDeletion := false, isDying := false }

/-- Four live enemies overlapping the projectile in one frame. -/
def pierceTargets : List (ℕ × EnemyE) :=
  [(0, pathEnemy), (1, pathEnemy), (2, pathEnemy), (3, pathEnemy)]

/-- Two live enemies overlapping the projectile (for the counterexample). -/
def pierceTargets2 : List (ℕ × EnemyE) :=
  [(0, pathEnemy), (1, pathEnemy)]

/-- Piercing projectile with `pierceCount = 3`, `damageDecay = 0.7`. -/
def pierceProj : Proj :=
  { x := 100, y := 300, vx := 22, vy := 0, size := 5, isAuto := false,
    damageMult := 1, blastRadius := 0, piercing := true, pierceCount := 3,
    damageDecay := 7/10, piercedEnemies := [], bouncesLeft := 0,
    markedForDeletion := false, screenWidth := 1200 }

/-- Combat globals giving a deterministic base damage of 100 (click
valuation 100, zero crit chance everywhere, no permanent or skill-tree
modifiers, no prestige). -/
def pierceCp : CombatParams := ⟨⟨100, 0, 0⟩, ⟨0, 0, 0⟩, noSkillFx, 0⟩

/-- Same globals with base damage 101 (used by the rounding
counterexample). -/
def pierceCp101 : CombatParams := ⟨⟨101, 0, 0⟩, ⟨0, 0, 0⟩, noSkillFx, 0⟩

/-- A fresh projectile/enemy world. -/
def pwInit : ProjWorld := ⟨lowHpWorld, [], []⟩

/-! ## Charged-attack instances (claim C7) -/

/-- The skip/overlap guard of the AoE pass, as one predicate: an entry is
splashed iff it is not the primary target, not dead or dying, and within
`blastRadius + e.size` of the impact point. -/
def aoeEligible (px py blastRadius : ℚ) (t : ℕ) (x : ℕ × EnemyE) : Bool :=
  (decide ¬(x.1 = t ∨ x.2.markedForDeletion = true ∨ x.2.isDying = true)) &&
  circleHit (x.2.x - px) (x.2.y - py) (blastRadius + x.2.size)

def chargedProj : Proj :=
  { x := 200, y := 300, vx := 22, vy := 0, size := 5, isAuto := false,
    damageMult := 1, blastRadius := 60, piercing := false, pierceCount := 0,
    damageDecay := 1, piercedEnemies := [], bouncesLeft := 0,
    markedForDeletion := false, screenWidth := 1200 }

/-- Combat globals with base click damage 10 and 50% crit chance. -/
def chargedCp : CombatParams := ⟨⟨10, 0, 50⟩, ⟨0, 0, 0⟩, noSkillFx, 0⟩

/-- A target at the impact point and a live bystander inside the blast. -/
def chargedTargets : List (ℕ × EnemyE) :=
  [(0, { pathEnemy with x := 210 }), (1, { pathEnemy with x := 240 })]

/-! ## Skill tree system (src/js/systems/skillTreeSystem.js, catalog from
src/js/data/skillTree.js)

Only the fields the tier/unlock state machine reads are embedded: id,
`maxTier`, `tierCosts`, `prerequisites`.  `CENTRAL_CORE` is a separate
object and its id "central_core" never occurs in `SKILL_TREE_NODES`. -/

structure SkillNodeDef where
  id : String
  maxTier : ℕ
  tierCosts : List ℚ
  prerequisites : List String
  deriving DecidableEq

def SKILL_TREE_NODES : List SkillNodeDef := [
  ⟨"combat_core", 5, [1, 2, 4, 8, 15], []⟩,
  ⟨"pulse_strength", 5, [1, 2, 4, 8, 15], ["combat_core"]⟩,
  ⟨"turret_power", 5, [1, 2, 4, 8, 15], ["combat_core"]⟩,
  ⟨"rapid_fire", 5, [2, 4, 6, 10, 18], ["pulse_strength"]⟩,
  ⟨"critical_focus", 5, [2, 4, 6, 10, 18], ["pulse_strength", "turret_power"]⟩,
  ⟨"multishot_expansion", 5, [2, 4, 8, 14, 22], ["turret_power"]⟩,
  ⟨"armor_piercing", 5, [3, 6, 10, 16, 25], ["rapid_fire"]⟩,
  ⟨"executioner", 5, [3, 6, 10, 16, 25], ["critical_focus"]⟩,
  ⟨"splash_damage", 5, [3, 6, 10, 16, 25], ["multishot_expansion"]⟩,
  ⟨"omega_strike", 3, [10, 20, 35], ["armor_piercing", "executioner", "splash_damage"]⟩,
  ⟨"defense_core", 5, [1, 2, 4, 8, 15], []⟩,
  ⟨"nano_repair", 5, [1, 2, 4, 8, 15], ["defense_core"]⟩,
  ⟨"hardened_plating", 5, [2, 4, 6, 10, 18], ["defense_core"]⟩,
  ⟨"regeneration_boost", 3, [3, 6, 10], ["nano_repair"]⟩,
  ⟨"cryo_enhancement", 5, [2, 4, 7, 12, 20], ["nano_repair", "hardened_plating"]⟩,
  ⟨"vampiric_core", 5, [3, 6, 10, 16, 25], ["hardened_plating"]⟩,
  ⟨"emergency_shield", 3, [5, 12, 22], ["regeneration_boost"]⟩,
  ⟨"adaptive_armor", 5, [3, 6, 10, 16, 25], ["cryo_enhancement"]⟩,
  ⟨"damage_reflect", 5, [3, 6, 10, 16, 25], ["vampiric_core"]⟩,
  ⟨"immortal_matrix", 3, [10, 20, 35], ["emergency_shield", "adaptive_armor", "damage_reflect"]⟩,
  ⟨"economy_core", 5, [1, 2, 4, 8, 15], []⟩,
  ⟨"bit_mining", 5, [1, 2, 4, 8, 15], ["economy_core"]⟩,
  ⟨"credit_optimization", 5, [2, 4, 6, 10, 18], ["economy_core"]⟩,
  ⟨"interest_gains", 5, [2, 4, 8, 14, 22], ["bit_mining"]⟩,
  ⟨"prestige_efficiency", 5, [2, 4, 7, 12, 20], ["bit_mining", "credit_optimization"]⟩,
  ⟨"bounty_hunter", 5, [2, 4, 8, 14, 22], ["credit_optimization"]⟩,
  ⟨"rare_affinity", 5, [3, 6, 10, 16, 25], ["interest_gains"]⟩,
  ⟨"kill_bonus", 5, [3, 6, 10, 16, 25], ["prestige_efficiency"]⟩,
  ⟨"upgrade_discount", 5, [3, 6, 10, 16, 25], ["bounty_hunter"]⟩,
  ⟨"golden_empire", 3, [10, 20, 35], ["rare_affinity", "kill_bonus", "upgrade_discount"]⟩,
  ⟨"utility_core", 5, [1, 2, 4, 8, 15], []⟩,
  ⟨"magnetic_field", 5, [1, 2, 4, 8, 15], ["utility_core"]⟩,
  ⟨"smart_targeting", 5, [1, 2, 4, 8, 15], ["utility_core"]⟩,
  ⟨"double_tap", 5, [2, 4, 7, 12, 20], ["magnetic_field"]⟩,
  ⟨"piercing_shots", 5, [2, 4, 8, 14, 22], ["magnetic_field", "smart_targeting"]⟩,
  ⟨"time_dilation", 5, [3, 6, 10, 16, 25], ["smart_targeting"]⟩,
  ⟨"explosive_rounds", 5, [3, 6, 10, 16, 25], ["double_tap"]⟩,
  ⟨"chain_lightning", 5, [3, 6, 10, 16, 25], ["piercing_shots"]⟩,
  ⟨"wildcards", 5, [4, 8, 14, 22, 32], ["time_dilation"]⟩,
  ⟨"quantum_stability", 3, [10, 20, 35], ["explosive_rounds", "chain_lightning", "wildcards"]⟩
]

structure NodeState where
  tier : ℕ
  unlocked : Bool
  deriving DecidableEq

/-- The mutable mapping node-id → `{tier, unlocked}` (`skillTreeState`). -/
abbrev SkillState := List (String × NodeState)

def getNodeState (st : SkillState) (id : String) : Option NodeState :=
  (st.find? (fun x => x.1 = id)).map Prod.snd

/-- `state[id] = ns` on an existing key. -/
def setNodeState (st : SkillState) (id : String) (ns : NodeState) : SkillState :=
  st.map (fun x => if x.1 = id then (x.1, ns) else x)

/-- `initSkillTreeSystem()` (lines 13-35): every catalog node starts at
tier 0, unlocked iff it has no prerequisites; then the central core entry
is assigned tier 1, unlocked (a fresh key, since "central_core" is not a
catalog id). -/
def initSkillTreeSystem : SkillState :=
  (SKILL_TREE_NODES.map (fun n => (n.id, (⟨0, n.prerequisites.isEmpty⟩ : NodeState))))
    ++ [("central_core", (⟨1, true⟩ : NodeState))]

/-- `checkPrerequisites(nodeId)` (lines 58-70): false for ids not in the
catalog; otherwise every prerequisite must exist, be unlocked and have
tier > 0. -/
def checkPrerequisites (st : SkillState) (nodeId : String) : Bool :=
  match SKILL_TREE_NODES.find? (fun n => n.id = nodeId) with
  | none => false
  | some node =>
      node.prerequisites.all (fun prereqId =>
        match getNodeState st prereqId with
        | some prereq => prereq.unlocked && decide (prereq.tier > 0)
        | none => false)

/-- The structured failure reasons of `canPurchaseNode` (the code returns
the strings 'Node not found', 'Max tier reached', 'Prerequisites not met'
and 'Need N Bytes'). -/
inductive PurchaseReason where
  | nodeNotFound
  | maxTierReached
  | prerequisitesNotMet
  | insufficientBytes (cost : ℚ)
  deriving DecidableEq

inductive CanPurchase where
  | no (reason : PurchaseReason)
  | yes (cost : ℚ) (nextTier : ℕ)
  deriving DecidableEq

/-- `canPurchaseNode(nodeId, prestigeCurrency)` (lines 75-97).  The checks
run in source order: node/state existence, max tier, prerequisites, cost.
`tierCosts` has length `maxTier` for every catalog node, so the cost index
`nextTier - 1 < maxTier` is always in range (`getD` default never hit). -/
def canPurchaseNode (st : SkillState) (nodeId : String) (prestigeCurrency : ℚ) :
    CanPurchase :=
  match SKILL_TREE_NODES.find? (fun n => n.id = nodeId), getNodeState st nodeId with
  | some node, some nodeState =>
      if nodeState.tier ≥ node.maxTier then .no .maxTierReached
      else if checkPrerequisites st nodeId = false then .no .prerequisitesNotMet
      else
        let nextTier := nodeState.tier + 1
        let cost := node.tierCosts.getD (nextTier - 1) 0
        if prestigeCurrency < cost then .no (.insufficientBytes cost)
        else .yes cost nextTier
  | _, _ => .no .nodeNotFound

/-- `unlockConnectedNodes()` (lines 131-140): one full in-order pass over
the catalog; a node still locked whose prerequisites are now met (as seen
by the partially-updated state) is unlocked. -/
def unlockConnectedNodes (st : SkillState) : SkillState :=
  SKILL_TREE_NODES.foldl
    (fun st node =>
      match getNodeState st node.id with
      | some ns =>
          if ns.unlocked = false && checkPrerequisites st node.id then
            setNodeState st node.id { ns with unlocked := true }
          else st
      | none => st)
    st

/-- `purchaseNode(nodeId, gameState)` (lines 103-126): re-validates via
`canPurchaseNode`; on failure returns null with nothing mutated; on
success deducts the cost from `gameState.prestigeCurrency`, sets the tier
and unlocked flag, and runs the unlock propagation pass. -/
def purchaseNode (st : SkillState) (nodeId : String) (prestigeCurrency : ℚ) :
    SkillState × ℚ × Option ℚ :=
  match canPurchaseNode st nodeId prestigeCurrency with
  | .no _ => (st, prestigeCurrency, none)
  | .yes cost nextTier =>
      let pc := prestigeCurrency - cost
      let st := setNodeState st nodeId ⟨nextTier, true⟩
      let st := unlockConnectedNodes st
      (st, pc, some cost)

structure SavedNode where
  id : String
  tier : ℕ
  unlocked : Bool
  deriving DecidableEq

/-- `loadSkillTreeSaveData(data)` (lines 362-385) for an array input:
re-initialize every node to defaults, overwrite tier AND unlocked flag
from each saved record whose id exists, then re-run the unlock
propagation pass. -/
def loadSkillTreeSaveData (data : List SavedNode) : SkillState :=
  let st := initSkillTreeSystem
  let st := data.foldl
    (fun st saved =>
      match getNodeState st saved.id with
      | some _ => setNodeState st saved.id ⟨saved.tier, saved.unlocked⟩
      | none => st)
    st
  unlockConnectedNodes st


/-! ## Particle pool (src/unnamed/part_011, `ParticleEngine`) -/

/-- One pool slot: `meta[i].active` plus the slot's written per-particle
fields (position, velocity, lifecycle, rendering — abstracted as a payload
`α`, since the capacity behaviour reads none of them).  The pool is the
fixed-size slot array of `poolSize` entries. -/
def acquire {α : Type} : List (Bool × α) → Option (ℕ × List (Bool × α))
  | [] => none
  | (active, v) :: rest =>
      if active = false then some (0, (true, v) :: rest)
      else (acquire rest).map (fun r => (r.1 + 1, (active, v) :: r.2))

/-- The `emit(presetName, x, y, opts)` loop (lines 396-467): for each of
`count` particles, `acquire()` scans for the first inactive slot — and when
the pool is exhausted the emission silently returns (`if (i < 0) return`) —
otherwise the slot's fields are overwritten; `fresh n` abstracts the
preset/opts/random-derived field values written for the n-th particle. -/
def emit {α : Type} (fresh : ℕ → α) : ℕ → List (Bool × α) → List (Bool × α)
  | 0, slots => slots
  | n + 1, slots =>
      match acquire slots with
      | none => slots
      | some r => emit (fun k => fresh (k + 1)) n (r.2.set r.1 (true, fresh 0))

/-- The engine's `activeCount` counter equals the number of active slots. -/
def activeCount {α : Type} (slots : List (Bool × α)) : ℕ :=
  (slots.filter (fun s => s.1)).length


/-! ## Claims C1, C10, C4 -/

/-- C1 counterexample: with the core at 5 hp, two 10-hp enemies crossing the
boundary in one frame leave `coreHp = -15` — the field is never clamped to
`[0, maxCoreHp]` — and `gameOver()` is invoked twice, not once. -/
theorem coreHp_not_clamped_counterexample :
    (updateEnemies 16 [crossingEnemy, crossingEnemy] lowHpWorld).2.coreHp = -15 ∧
    ¬ (0 ≤ (updateEnemies 16 [crossingEnemy, crossingEnemy] lowHpWorld).2.coreHp) ∧
    (updateEnemies 16 [crossingEnemy, crossingEnemy] lowHpWorld).2.gameOverCalls = 2 := by
  norm_num [updateEnemies, enemyUpdateBoundary, takeDamage, gameOverFn,
    crossingEnemy, lowHpWorld]

/-- C1 (amended): when an enemy's x-position crosses the core boundary during
its update, the core takes damage exactly equal to the enemy's current hp and
the enemy is marked for deletion; `coreHp` is decremented WITHOUT clamping
(it may go negative; only the HP-bar display is clamped at 0), and the
game-over transition is invoked on every such hit that leaves `coreHp ≤ 0`
(so once per run only insofar as a single crossing occurs per frame). -/
theorem enemy_cross_core_damage (dt : ℚ) (e : EnemyE) (w : World)
    (hcross : e.x - (if e.frozen > 0 then 0 else e.speed) * (dt / 16) < 60) :
    (enemyUpdateBoundary dt e w).1.markedForDeletion = true ∧
    (enemyUpdateBoundary dt e w).2.coreHp = w.coreHp - e.hp ∧
    (enemyUpdateBoundary dt e w).2.gameOverCalls =
      w.gameOverCalls + (if w.coreHp - e.hp ≤ 0 then 1 else 0) ∧
    (enemyUpdateBoundary dt e w).2.gameOver =
      (w.gameOver || decide (w.coreHp - e.hp ≤ 0)) := by
  simp only [enemyUpdateBoundary, takeDamage, gameOverFn]
  rw [if_pos hcross]
  split_ifs <;> simp_all

/-- Witness for `enemy_cross_core_damage` at a concrete crossing. -/
theorem enemy_cross_core_damage_witness :
    (crossingEnemy.x - (if crossingEnemy.frozen > 0 then 0 else crossingEnemy.speed)
        * ((16 : ℚ) / 16) < 60) ∧
    (enemyUpdateBoundary 16 crossingEnemy lowHpWorld).2.coreHp =
      lowHpWorld.coreHp - crossingEnemy.hp :=
  ⟨by norm_num [crossingEnemy],
   (enemy_cross_core_damage 16 crossingEnemy lowHpWorld
      (by norm_num [crossingEnemy])).2.1⟩

/-- C10 (confirmed): an enemy crossing the core boundary still awards half its
kill reward: `state.money` increases by `Math.floor(0.5 * bits)`, in addition
to the core taking damage equal to its current hp and the enemy being marked
for deletion. -/
theorem enemy_cross_awards_half_bits (dt : ℚ) (e : EnemyE) (w : World)
    (hcross : e.x - (if e.frozen > 0 then 0 else e.speed) * (dt / 16) < 60) :
    (enemyUpdateBoundary dt e w).2.money = w.money + ((⌊e.bits * (1/2)⌋ : ℤ) : ℚ) ∧
    (enemyUpdateBoundary dt e w).2.coreHp = w.coreHp - e.hp ∧
    (enemyUpdateBoundary dt e w).1.markedForDeletion = true := by
  simp only [enemyUpdateBoundary, takeDamage, gameOverFn]
  rw [if_pos hcross]
  split_ifs <;> simp_all

/-- Witness for `enemy_cross_awards_half_bits`: 7 bits award `⌊3.5⌋ = 3`. -/
theorem enemy_cross_awards_half_bits_witness :
    (crossingEnemy.x - (if crossingEnemy.frozen > 0 then 0 else crossingEnemy.speed)
        * ((16 : ℚ) / 16) < 60) ∧
    (enemyUpdateBoundary 16 crossingEnemy lowHpWorld).2.money = 0 + ((3 : ℤ) : ℚ) :=
  ⟨by norm_num [crossingEnemy], by
    have h := (enemy_cross_awards_half_bits 16 crossingEnemy lowHpWorld
      (by norm_num [crossingEnemy])).1
    rw [h]
    norm_num [lowHpWorld, crossingEnemy]⟩

/-! ## Claim C4 (corrected) -/

/-- C4 counterexample: at level 100 with `spawnRate = 1500` and pace
multiplier 0.72 (the configured band minimum), the code sets the next timer
to `max(250, 250 * 0.72) = 250`, not the claimed
`max(250, 1500 - 100*18) * 0.72 = 180`. -/
theorem spawn_timer_formula_counterexample :
    (updateSpawner 16 ⟨0, 1500, 100, 0⟩ (18/25)).spawnTimer = 250 ∧
    max MIN_SPAWN_RATE ((1500 : ℚ) - 100 * SPAWN_RATE_DECREASE_PER_LEVEL) * (18/25) = 180 ∧
    (250 : ℚ) ≠ 180 := by
  norm_num [updateSpawner, MIN_SPAWN_RATE, SPAWN_RATE_DECREASE_PER_LEVEL]

/-- C4 (amended): whenever the spawn timer reaches `≤ 0` an enemy is
instantiated and the next timer is
`max(minSpawnRate, max(minSpawnRate, baseSpawnRate − level×perLevelDecrease) × paceMultiplier)`
— i.e. the claimed formula additionally re-clamped at `minSpawnRate` after
the pace multiplication (the claimed value is only reached when the paced
product is at least `minSpawnRate`, e.g. whenever `paceMultiplier ≥ 1`). -/
theorem spawn_timer_formula (dt : ℚ) (s : SpawnState) (pace : ℚ)
    (h : s.spawnTimer - dt ≤ 0) :
    (updateSpawner dt s pace).spawnTimer =
      max MIN_SPAWN_RATE
        (max MIN_SPAWN_RATE (s.spawnRate - s.level * SPAWN_RATE_DECREASE_PER_LEVEL) * pace) ∧
    (updateSpawner dt s pace).enemyCount = s.enemyCount + 1 := by
  simp only [updateSpawner]
  split <;> simp_all

/-- Witness for `spawn_timer_formula`. -/
theorem spawn_timer_formula_witness :
    ((0 : ℚ) - 16 ≤ 0) ∧
    (updateSpawner 16 ⟨0, 1500, 100, 0⟩ (18/25)).spawnTimer =
      max MIN_SPAWN_RATE
        (max MIN_SPAWN_RATE ((1500 : ℚ) - 100 * SPAWN_RATE_DECREASE_PER_LEVEL) * (18/25)) :=
  ⟨by norm_num, (spawn_timer_formula 16 ⟨0, 1500, 100, 0⟩ (18/25) (by norm_num)).1⟩


/-! ## Claim C2 helper lemmas and theorem -/

lemma gate_add_of_nonneg (c x : ℚ) (h : 0 ≤ x) :
    (if x > 0 then c + x else c) = c + x := by
  split_ifs with hx
  · rfl
  · have : x = 0 := le_antisymm (not_lt.mp hx) h
    simp [this]

lemma gate_mult_of_one_le (v x : ℚ) (h : 1 ≤ x) :
    (if x ≠ 0 ∧ x ≠ 1 then v * x else v) = v * x := by
  split_ifs with hx
  · rfl
  · push_neg at hx
    rcases eq_or_ne x 0 with h0 | h0
    · exfalso; rw [h0] at h; exact absurd h (by norm_num)
    · rw [hx h0]; ring

lemma gate_crit_mult_of_nonneg (b : Bool) (v x : ℚ) (h : 0 ≤ x) :
    (if b = true ∧ x > 0 then v * (1 + x) else v) =
      (if b = true then v * (1 + x) else v) := by
  cases b
  · simp
  · rcases h.lt_or_eq with hx | hx
    · simp [hx]
    · simp [← hx]

/-! ## Claim C2 (confirmed) -/

/-- C2 (confirmed): `getDamage` computes damage exactly in the claimed order
— base valuation, permanent flat click bonus / permanent auto multiplier,
crit roll against the summed chance with the fixed crit constant, prestige
multiplier `1 + prestigeCurrency × 0.25`, skill-tree all-damage multiplier,
source-specific skill-tree flat bonus, and crit-only skill-tree crit-damage
multiplier — for the effect values `getSkillTreeEffects` can produce
(all-damage multiplier at least 1, the other bonuses nonnegative). -/
theorem getDamage_order_matches_spec (source : Source) (u : UpgradeVals)
    (perms : PermVals) (fx : SkillEffects) (pc r : ℚ)
    (hcc : 0 ≤ fx.critChance) (had : 1 ≤ fx.allDamageMult)
    (hcd : 0 ≤ fx.clickDamage) (htd : 0 ≤ fx.turretDamage)
    (hoc : 0 ≤ fx.omegaCritDamage) :
    getDamage source u perms fx pc r = getDamageSpecOrder source u perms fx pc r := by
  cases source <;>
    simp only [getDamage, getDamageSpecOrder,
      gate_add_of_nonneg _ _ hcc, gate_mult_of_one_le _ _ had,
      gate_add_of_nonneg _ _ hcd, gate_add_of_nonneg _ _ htd,
      gate_crit_mult_of_nonneg _ _ _ hoc]

/-- Witness for `getDamage_order_matches_spec` at concrete values. -/
theorem getDamage_order_matches_spec_witness :
    ((0 : ℚ) ≤ 7 ∧ (1 : ℚ) ≤ 21/20 ∧ (0 : ℚ) ≤ 3 ∧ (0 : ℚ) ≤ 4 ∧ (0 : ℚ) ≤ 1/10) ∧
    getDamage .click ⟨9, 13, 10⟩ ⟨2, 1/2, 5⟩ ⟨21/20, 3, 4, 7, 1/10, 0⟩ 2 (1/10) =
      getDamageSpecOrder .click ⟨9, 13, 10⟩ ⟨2, 1/2, 5⟩ ⟨21/20, 3, 4, 7, 1/10, 0⟩ 2 (1/10) :=
  ⟨by norm_num,
   getDamage_order_matches_spec .click ⟨9, 13, 10⟩ ⟨2, 1/2, 5⟩ ⟨21/20, 3, 4, 7, 1/10, 0⟩
     2 (1/10) (by norm_num) (by norm_num) (by norm_num) (by norm_num) (by norm_num)⟩


/-! ## Claim C6 -/

/-- C6 (confirmed): when `armor > 0` and incoming damage `> 0`, `hitEnemy`
always removes at least 1 hp (armor never fully negates a hit), and in the
scenario `armor = 5`, raw damage `3` the hp loss is exactly 1. -/
theorem hitEnemy_armor_min_one :
    (∀ (fx : SkillEffects) (e : EnemyE) (dmg : DamageInfo) (w : World),
        0 < e.armor → 0 < dmg.damage →
        1 ≤ e.hp - (hitEnemy fx e dmg w).enemy.hp) ∧
    armoredEnemy.hp - (hitEnemy noSkillFx armoredEnemy ⟨3, false⟩ lowHpWorld).enemy.hp = 1 := by
  constructor
  · intro fx e dmg w harmor _
    simp only [hitEnemy]
    split_ifs <;> simp_all
  · norm_num [hitEnemy, armoredEnemy, noSkillFx, lowHpWorld]

/-- Witness for `hitEnemy_armor_min_one` at the C6 scenario input. -/
theorem hitEnemy_armor_min_one_witness :
    (0 < armoredEnemy.armor ∧ (0 : ℚ) < 3) ∧
    1 ≤ armoredEnemy.hp - (hitEnemy noSkillFx armoredEnemy ⟨3, false⟩ lowHpWorld).enemy.hp :=
  ⟨⟨by norm_num [armoredEnemy], by norm_num⟩,
   hitEnemy_armor_min_one.1 noSkillFx armoredEnemy ⟨3, false⟩ lowHpWorld
     (by norm_num [armoredEnemy]) (by norm_num)⟩


/-! ## Claim C3: piercing decay (helper lemmas, then the claim) -/

lemma hitEnemy_static (fx : SkillEffects) (e : EnemyE) (dmg : DamageInfo) (w : World) :
    (hitEnemy fx e dmg w).enemy.armor = e.armor ∧
    (hitEnemy fx e dmg w).enemy.isEpicBossShielded = e.isEpicBossShielded := by
  simp only [hitEnemy]
  split_ifs <;> simp

lemma hitEnemy_applied_armorless (fx : SkillEffects) (e : EnemyE) (dmg : DamageInfo)
    (w : World) (ha : e.armor = 0) (hs : e.isEpicBossShielded = false) :
    (hitEnemy fx e dmg w).applied = dmg.damage := by
  simp only [hitEnemy, ha, hs]
  split_ifs <;> simp_all

lemma hitTargetById_log (fx : SkillEffects) (t : ℕ) (dmg : DamageInfo) :
    ∀ (es : List (ℕ × EnemyE)) (pw : ProjWorld),
    (∀ x ∈ es, (x : ℕ × EnemyE).2.armor = 0 ∧ x.2.isEpicBossShielded = false) →
    t ∈ es.map Prod.fst →
    (hitTargetById fx t dmg es pw).2.1.damageLog = pw.damageLog ++ [(t, dmg.damage)] ∧
    (hitTargetById fx t dmg es pw).1.map Prod.fst = es.map Prod.fst ∧
    (∀ x ∈ (hitTargetById fx t dmg es pw).1, x.2.armor = 0 ∧ x.2.isEpicBossShielded = false)
  | [], pw => by intro _ ht; simp at ht
  | (i, e) :: rest, pw => by
      intro harm ht
      by_cases hit : i = t
      · subst hit
        have he := harm (i, e) (by simp)
        have happ := hitEnemy_applied_armorless fx e dmg pw.world he.1 he.2
        have hstat := hitEnemy_static fx e dmg pw.world
        simp only [hitTargetById, if_pos rfl]
        refine ⟨?_, by simp, ?_⟩
        · split_ifs <;> simp [onEnemyKillModel, happ]
        · intro x hx
          rcases List.mem_cons.mp hx with hx | hx
          · subst hx; exact ⟨hstat.1.trans he.1, hstat.2.trans he.2⟩
          · exact harm x (List.mem_cons_of_mem _ hx)
      · have ht' : t ∈ rest.map Prod.fst := by
          rcases List.mem_map.mp ht with ⟨a, ha, rfl⟩
          rcases List.mem_cons.mp ha with rfl | ha
          · exact absurd rfl hit
          · exact List.mem_map_of_mem _ ha
        have harm' : ∀ x ∈ rest, (x : ℕ × EnemyE).2.armor = 0 ∧ x.2.isEpicBossShielded = false :=
          fun x hx => harm x (List.mem_cons_of_mem _ hx)
        have IH := hitTargetById_log fx t dmg rest pw harm' ht'
        simp only [hitTargetById, if_neg hit]
        refine ⟨IH.1, by simp [IH.2.1], ?_⟩
        intro x hx
        rcases List.mem_cons.mp hx with rfl | hx
        · exact harm (i, e) (by simp)
        · exact IH.2.2 x hx


lemma hitWithMultiplier_pierce (p : Proj) (t : ℕ) (mult : ℚ) (cp : CombatParams)
    (r1 r2 : ℚ) (es : List (ℕ × EnemyE)) (pw : ProjWorld) (D : ℚ)
    (hpc : p.piercing = true) (hbl : p.blastRadius ≤ 0)
    (hroll : getDamage (if p.isAuto then Source.auto else Source.click)
        cp.u cp.perms cp.fx cp.prestigeCurrency r1 = (D, false))
    (harm : ∀ x ∈ es, (x : ℕ × EnemyE).2.armor = 0 ∧ x.2.isEpicBossShielded = false)
    (ht : t ∈ es.map Prod.fst) :
    (hitWithMultiplier p t mult cp r1 r2 es pw).1 = p ∧
    (hitWithMultiplier p t mult cp r1 r2 es pw).2.2.damageLog
      = pw.damageLog ++ [(t, pierceHitDamage D mult)] ∧
    (hitWithMultiplier p t mult cp r1 r2 es pw).2.1.map Prod.fst = es.map Prod.fst ∧
    (∀ x ∈ (hitWithMultiplier p t mult cp r1 r2 es pw).2.1,
        (x : ℕ × EnemyE).2.armor = 0 ∧ x.2.isEpicBossShielded = false) := by
  have hnb : ¬ (p.blastRadius > 0) := not_lt.mpr hbl
  have hdmg : (if mult ≠ 1 then
      (⟨((⌊(getDamage (if p.isAuto then Source.auto else Source.click)
            cp.u cp.perms cp.fx cp.prestigeCurrency r1).1 * mult⌋ : ℤ) : ℚ),
        (getDamage (if p.isAuto then Source.auto else Source.click)
            cp.u cp.perms cp.fx cp.prestigeCurrency r1).2⟩ : DamageInfo)
      else ⟨(getDamage (if p.isAuto then Source.auto else Source.click)
            cp.u cp.perms cp.fx cp.prestigeCurrency r1).1,
        (getDamage (if p.isAuto then Source.auto else Source.click)
            cp.u cp.perms cp.fx cp.prestigeCurrency r1).2⟩)
      = (⟨pierceHitDamage D mult, false⟩ : DamageInfo) := by
    rw [hroll]
    simp only [pierceHitDamage]
    split_ifs <;> rfl
  have hlog := hitTargetById_log cp.fx t ⟨pierceHitDamage D mult, false⟩ es pw harm ht
  simp only [hitWithMultiplier, hpc, hdmg]
  norm_num [hnb]
  exact ⟨hlog.1, hlog.2.1, fun a b hab => hlog.2.2 (a, b) hab⟩


lemma pierceLoop_hits (cp : CombatParams) (rs : ℕ → ℚ) (ch D : ℚ) :
    ∀ (ids : List ℕ) (p : Proj) (es : List (ℕ × EnemyE)) (pw : ProjWorld) (k : ℕ),
    p.piercing = true → p.blastRadius ≤ 0 →
    (∀ j, getDamage (if p.isAuto then Source.auto else Source.click)
        cp.u cp.perms cp.fx cp.prestigeCurrency (rs j) = (D, false)) →
    (∀ x ∈ es, (x : ℕ × EnemyE).2.armor = 0 ∧ x.2.isEpicBossShielded = false) →
    p.piercedEnemies.length < p.pierceCount →
    ∃ m,
      (pierceLoop cp rs ch ids p es pw k).2.2.damageLog.map Prod.snd
        = pw.damageLog.map Prod.snd ++ (List.range m).map
            (fun j => pierceHitDamage D (p.damageDecay ^ (p.piercedEnemies.length + j))) ∧
      (pierceLoop cp rs ch ids p es pw k).1.piercedEnemies.length
        = p.piercedEnemies.length + m ∧
      p.piercedEnemies.length + m ≤ p.pierceCount ∧
      (p.piercedEnemies.length + m = p.pierceCount →
        (pierceLoop cp rs ch ids p es pw k).1.markedForDeletion = true) := by
  intro ids
  induction ids with
  | nil =>
      intro p es pw k hpc hbl hroll harm hlen
      refine ⟨0, by simp [pierceLoop], ?_, by omega, fun h => absurd h (by omega)⟩
      simp only [pierceLoop]
      split_ifs <;> simp
  | cons i rest IH =>
      intro p es pw k hpc hbl hroll harm hlen
      simp only [pierceLoop]
      cases hfind : (es.find? fun x => x.1 = i).map Prod.snd with
      | none =>
          exact IH p es pw k hpc hbl hroll harm hlen
      | some e =>
          dsimp only
          by_cases hdead : e.markedForDeletion = true ∨ e.isDying = true
          · rw [if_pos hdead]
            exact IH p es pw k hpc hbl hroll harm hlen
          · rw [if_neg hdead]
            by_cases hmem : i ∈ p.piercedEnemies
            · rw [if_pos hmem]
              exact IH p es pw k hpc hbl hroll harm hlen
            · rw [if_neg hmem]
              by_cases hcol : circleHit (e.x - p.x) (e.y - e.size / 2 - p.y) (e.size + p.size) = true
              · rw [if_pos hcol]
                have ht : i ∈ es.map Prod.fst := by
                  rcases Option.map_eq_some'.mp hfind with ⟨a, ha, rfl⟩
                  have hamem := List.mem_of_find?_eq_some ha
                  have hai : a.1 = i := by
                    have := List.find?_some ha
                    simpa using this
                  exact hai ▸ List.mem_map_of_mem Prod.fst hamem
                have hhit := hitWithMultiplier_pierce
                  { p with piercedEnemies := p.piercedEnemies ++ [i] } i
                  (p.damageDecay ^ ((p.piercedEnemies ++ [i]).length - 1))
                  cp (rs k) (rs (k + 1)) es pw D hpc hbl (hroll k) harm ht
                rw [hhit.1]
                by_cases hstop : p.pierceCount ≤ p.piercedEnemies.length + 1
                · rw [if_pos (show ({ p with piercedEnemies := p.piercedEnemies ++ [i] } : Proj).pierceCount ≤
                      ({ p with piercedEnemies := p.piercedEnemies ++ [i] } : Proj).piercedEnemies.length by
                        simpa using hstop)]
                  refine ⟨1, ?_, by simp, by omega, fun _ => rfl⟩
                  dsimp only
                  rw [hhit.2.1]
                  simp [pierceHitDamage, List.range_succ]
                · rw [if_neg (show ¬ (({ p with piercedEnemies := p.piercedEnemies ++ [i] } : Proj).pierceCount ≤
                      ({ p with piercedEnemies := p.piercedEnemies ++ [i] } : Proj).piercedEnemies.length) by
                        simpa using hstop)]
                  obtain ⟨m, h1, h2, h3, h4⟩ := IH
                    { p with piercedEnemies := p.piercedEnemies ++ [i] }
                    (hitWithMultiplier { p with piercedEnemies := p.piercedEnemies ++ [i] } i
                      (p.damageDecay ^ ((p.piercedEnemies ++ [i]).length - 1))
                      cp (rs k) (rs (k + 1)) es pw).2.1
                    (hitWithMultiplier { p with piercedEnemies := p.piercedEnemies ++ [i] } i
                      (p.damageDecay ^ ((p.piercedEnemies ++ [i]).length - 1))
                      cp (rs k) (rs (k + 1)) es pw).2.2
                    (if ({ p with piercedEnemies := p.piercedEnemies ++ [i] } : Proj).blastRadius > 0
                      then k + 2 else k + 1)
                    (by simpa using hpc) (by simpa using hbl) (by simpa using hroll)
                    hhit.2.2.2 (by simp; omega)
                  have hl : (p.piercedEnemies ++ [i]).length = p.piercedEnemies.length + 1 := by
                    simp
                  dsimp only at h1 h2 h3 h4 ⊢
                  refine ⟨m + 1, ?_, by rw [h2]; omega, by omega, fun hh => h4 (by omega)⟩
                  rw [h1, hhit.2.1]
                  simp only [List.map_append, List.map_cons, List.map_nil, List.append_assoc,
                    List.range_succ_eq_map, List.map_map, hl]
                  rw [List.singleton_append]
                  congr 2
                  apply List.map_congr_left
                  intro a ha
                  show pierceHitDamage D (p.damageDecay ^ (p.piercedEnemies.length + 1 + a))
                      = pierceHitDamage D (p.damageDecay ^ (p.piercedEnemies.length + Nat.succ a))
                  have hje : p.piercedEnemies.length + 1 + a = p.piercedEnemies.length + Nat.succ a := by
                    omega
                  rw [hje]
              · rw [if_neg hcol]
                exact IH p es pw k hpc hbl hroll harm hlen


/-- C3 (amended): under a deterministic non-crit damage roll `D`, a fresh
piercing projectile records one damage entry per distinct enemy hit, at
most `pierceCount` of them, and is marked for deletion immediately upon
the `pierceCount`-th even if live enemies remain; the Nth hit applies
exactly `D` when `decay^(N-1) = 1` (in particular the first hit, whose
multiplier-1 case skips the floor), and otherwise applies the FLOORED
product `Math.floor(D × decay^(N-1))` — pinned here only to within one
integer of the real-valued product (strictly between it minus 2 and it
plus 1), because floating rounding decides which side of an integer the
double product lands on.  Scenario (`pierceCount = 3`, `damageDecay =
0.7`, base damage 100, four live enemies in the path): exactly three hits,
the first two dealing exactly 100 and 70 (values at which doubles and
rationals provably agree), the third dealing the floored product of
`100 × 0.49` — between 48 and 49; the program's IEEE arithmetic gives 48
(`Math.floor(48.99999999999999)`), the rational idealization 49, and the
original claim's "49" overstates the program — the projectile is deleted
after the third hit and the fourth enemy is untouched. -/
theorem piercing_decay_and_budget :
    (∀ (dt : ℚ) (p : Proj) (es : List (ℕ × EnemyE)) (cp : CombatParams)
        (rs : ℕ → ℚ) (ch : ℚ) (pw : ProjWorld) (D : ℚ),
      p.piercing = true → p.blastRadius ≤ 0 →
      (∀ j, getDamage (if p.isAuto then Source.auto else Source.click)
          cp.u cp.perms cp.fx cp.prestigeCurrency (rs j) = (D, false)) →
      (∀ x ∈ es, (x : ℕ × EnemyE).2.armor = 0 ∧ x.2.isEpicBossShielded = false) →
      p.piercedEnemies = [] → pw.damageLog = [] → 0 < p.pierceCount →
      ∃ m, m ≤ p.pierceCount ∧
        ((updatePiercing dt p es cp rs ch pw).2.2.damageLog.map Prod.snd).length = m ∧
        (∀ j, j < m →
          (p.damageDecay ^ j = 1 →
            ((updatePiercing dt p es cp rs ch pw).2.2.damageLog.map Prod.snd).getD j 0 = D) ∧
          (p.damageDecay ^ j ≠ 1 →
            D * p.damageDecay ^ j - 2 <
                ((updatePiercing dt p es cp rs ch pw).2.2.damageLog.map Prod.snd).getD j 0 ∧
              ((updatePiercing dt p es cp rs ch pw).2.2.damageLog.map Prod.snd).getD j 0 <
                D * p.damageDecay ^ j + 1)) ∧
        (m = p.pierceCount →
          (updatePiercing dt p es cp rs ch pw).1.markedForDeletion = true)) ∧
    (((updatePiercing 16 pierceProj pierceTargets pierceCp (fun _ => 0) 600 pwInit).2.2.damageLog.map
          Prod.snd).length = 3 ∧
      ((updatePiercing 16 pierceProj pierceTargets pierceCp (fun _ => 0) 600 pwInit).2.2.damageLog.map
          Prod.snd).getD 0 0 = 100 ∧
      ((updatePiercing 16 pierceProj pierceTargets pierceCp (fun _ => 0) 600 pwInit).2.2.damageLog.map
          Prod.snd).getD 1 0 = 70 ∧
      (48 ≤ ((updatePiercing 16 pierceProj pierceTargets pierceCp (fun _ => 0) 600 pwInit).2.2.damageLog.map
          Prod.snd).getD 2 0 ∧
        ((updatePiercing 16 pierceProj pierceTargets pierceCp (fun _ => 0) 600 pwInit).2.2.damageLog.map
          Prod.snd).getD 2 0 ≤ 49) ∧
      (updatePiercing 16 pierceProj pierceTargets pierceCp (fun _ => 0) 600 pwInit).1.markedForDeletion
        = true ∧
      ((updatePiercing 16 pierceProj pierceTargets pierceCp (fun _ => 0) 600 pwInit).2.1.map
          (fun x => (x.1, x.2.hp))).getD 3 (0, 0) = (3, 1000)) := by
  constructor
  · intro dt p es cp rs ch pw D hpc hbl hroll harm hfresh hlog hcount
    have hmain := pierceLoop_hits cp rs ch D (es.map Prod.fst)
      { p with x := p.x + p.vx * (dt / 16), y := p.y + p.vy * (dt / 16) } es pw 0
      (by simpa using hpc) (by simpa using hbl) (by simpa using hroll) harm
      (by simpa [hfresh] using hcount)
    obtain ⟨m, h1, h2, h3, h4⟩ := hmain
    have hEqlog : (updatePiercing dt p es cp rs ch pw).2.2.damageLog.map Prod.snd
        = (List.range m).map (fun j => pierceHitDamage D (p.damageDecay ^ j)) := by
      rw [show (updatePiercing dt p es cp rs ch pw)
          = pierceLoop cp rs ch (es.map Prod.fst)
              { p with x := p.x + p.vx * (dt / 16), y := p.y + p.vy * (dt / 16) } es pw 0
          from rfl]
      rw [h1]
      simp only [hlog, List.map_nil, List.nil_append]
      apply List.map_congr_left
      intro a ha
      have : ({ p with x := p.x + p.vx * (dt / 16),
                       y := p.y + p.vy * (dt / 16) } : Proj).piercedEnemies.length + a = a := by
        simp [hfresh]
      rw [this]
    refine ⟨m, by simpa [hfresh] using h3, by rw [hEqlog]; simp, fun j hj => ?_, fun hm => ?_⟩
    · have hget : ((updatePiercing dt p es cp rs ch pw).2.2.damageLog.map Prod.snd).getD j 0
          = pierceHitDamage D (p.damageDecay ^ j) := by
        rw [hEqlog, List.getD_eq_getElem _ _ (by simpa using hj)]
        simp
      constructor
      · intro hone
        rw [hget]
        simp [pierceHitDamage, hone]
      · intro hne
        rw [hget]
        simp only [pierceHitDamage, if_pos hne]
        constructor
        · have := Int.sub_one_lt_floor (D * p.damageDecay ^ j)
          linarith
        · have := Int.floor_le (D * p.damageDecay ^ j)
          linarith
    · rw [show (updatePiercing dt p es cp rs ch pw)
          = pierceLoop cp rs ch (es.map Prod.fst)
              { p with x := p.x + p.vx * (dt / 16), y := p.y + p.vy * (dt / 16) } es pw 0
          from rfl]
      exact h4 (by simpa [hfresh] using hm)
  · norm_num [updatePiercing, pierceLoop, hitWithMultiplier, hitTargetById, getDamage, hitEnemy,
      circleHit, onEnemyKillModel, pierceProj, pierceTargets, pathEnemy, pierceCp, noSkillFx,
      pwInit, lowHpWorld, CRIT_DAMAGE_MULTIPLIER, PRESTIGE_MULT_PER_BYTE, List.find?]

/-- Witness for `piercing_decay_and_budget` at the scenario input. -/
theorem piercing_decay_and_budget_witness :
    pierceProj.piercing = true ∧
    (∃ m, m ≤ pierceProj.pierceCount ∧
      ((updatePiercing 16 pierceProj pierceTargets pierceCp (fun _ => 0) 600 pwInit).2.2.damageLog.map
          Prod.snd).length = m ∧
      (∀ j, j < m →
        (pierceProj.damageDecay ^ j = 1 →
          ((updatePiercing 16 pierceProj pierceTargets pierceCp (fun _ => 0) 600
              pwInit).2.2.damageLog.map Prod.snd).getD j 0 = 100) ∧
        (pierceProj.damageDecay ^ j ≠ 1 →
          100 * pierceProj.damageDecay ^ j - 2 <
              ((updatePiercing 16 pierceProj pierceTargets pierceCp (fun _ => 0) 600
                  pwInit).2.2.damageLog.map Prod.snd).getD j 0 ∧
            ((updatePiercing 16 pierceProj pierceTargets pierceCp (fun _ => 0) 600
                pwInit).2.2.damageLog.map Prod.snd).getD j 0 <
              100 * pierceProj.damageDecay ^ j + 1)) ∧
      (m = pierceProj.pierceCount →
        (updatePiercing 16 pierceProj pierceTargets pierceCp (fun _ => 0) 600 pwInit).1.markedForDeletion
          = true)) :=
  ⟨rfl,
   piercing_decay_and_budget.1 16 pierceProj pierceTargets pierceCp (fun _ => 0) 600 pwInit 100
     rfl (by norm_num [pierceProj])
     (by
       intro j
       norm_num [getDamage, pierceProj, pierceCp, noSkillFx, CRIT_DAMAGE_MULTIPLIER,
         PRESTIGE_MULT_PER_BYTE])
     (by
       intro x hx
       fin_cases hx <;> simp [pathEnemy])
     rfl rfl (by norm_num [pierceProj])⟩

/-- C3 counterexample: with base damage 101 the second hit applies
`Math.floor(101 × 0.7) = 70`, not the claimed `101 × 0.7^1 = 70.7` — a
discrepancy of 0.7, far beyond floating rounding (both hit values here are
rounding-robust: the double product `70.69999999999999` and the rational
product `70.7` floor to the same 70): the code floors every decayed hit. -/
theorem piercing_decay_counterexample :
    (updatePiercing 16 pierceProj pierceTargets2 pierceCp101 (fun _ => 0) 600 pwInit).2.2.damageLog.map
        Prod.snd = [101, 70] ∧
    (101 : ℚ) * (7/10) = 707/10 ∧ ((70 : ℚ) ≠ 707/10) := by
  norm_num [updatePiercing, pierceLoop, hitWithMultiplier, hitTargetById, getDamage, hitEnemy,
    circleHit, onEnemyKillModel, pierceProj, pierceTargets2, pathEnemy, pierceCp101, noSkillFx,
    pwInit, lowHpWorld, CRIT_DAMAGE_MULTIPLIER, PRESTIGE_MULT_PER_BYTE, List.find?]


/-! ## Claim C7: charged splash and kill reporting -/

lemma hitTargetById_kills (fx : SkillEffects) (t : ℕ) (dmg : DamageInfo) :
    ∀ (es : List (ℕ × EnemyE)) (pw : ProjWorld),
    (hitTargetById fx t dmg es pw).2.1.killEvents
      = pw.killEvents ++ (if (hitTargetById fx t dmg es pw).2.2 = true then [t] else [])
  | [], pw => by simp [hitTargetById]
  | (i, e) :: rest, pw => by
      by_cases hit : i = t
      · subst hit
        simp only [hitTargetById, if_pos rfl]
        split_ifs with hk <;> simp_all [onEnemyKillModel]
      · simp only [hitTargetById, if_neg hit]
        exact hitTargetById_kills fx t dmg rest pw

lemma hitTargetById_filter (fx : SkillEffects) (t : ℕ) (dmg : DamageInfo)
    (q : ℕ × EnemyE → Bool) (hq : ∀ x : ℕ × EnemyE, x.1 = t → q x = false) :
    ∀ (es : List (ℕ × EnemyE)) (pw : ProjWorld),
    (hitTargetById fx t dmg es pw).1.filter q = es.filter q
  | [], pw => by simp [hitTargetById]
  | (i, e) :: rest, pw => by
      by_cases hit : i = t
      · subst hit
        simp only [hitTargetById, if_pos rfl]
        simp [List.filter_cons, hq ((i, e) : ℕ × EnemyE) rfl,
          hq ((i, (hitEnemy fx e dmg pw.world).enemy) : ℕ × EnemyE) rfl]
      · simp only [hitTargetById, if_neg hit]
        simp [List.filter_cons, hitTargetById_filter fx t dmg q hq rest pw]

lemma aoeHitEnemies_spec (fx : SkillEffects) (px py br : ℚ) (t : ℕ)
    (dmg : DamageInfo) :
    ∀ (es : List (ℕ × EnemyE)) (pw : ProjWorld),
    (∀ x ∈ es, (x : ℕ × EnemyE).2.armor = 0 ∧ x.2.isEpicBossShielded = false) →
    (aoeHitEnemies fx px py br t dmg es pw).2.damageLog
      = pw.damageLog ++ (es.filter (aoeEligible px py br t)).map (fun x => (x.1, dmg.damage)) ∧
    ∃ ks : List ℕ,
      (aoeHitEnemies fx px py br t dmg es pw).2.killEvents = pw.killEvents ++ ks ∧
      ks.Sublist ((es.filter (aoeEligible px py br t)).map Prod.fst)
  | [], pw => by intro _; simp [aoeHitEnemies]
  | (i, e) :: rest, pw => by
      intro harm
      have harmr : ∀ x ∈ rest, (x : ℕ × EnemyE).2.armor = 0 ∧ x.2.isEpicBossShielded = false :=
        fun x hx => harm x (List.mem_cons_of_mem _ hx)
      have he := harm (i, e) (by simp)
      by_cases hskip : i = t ∨ e.markedForDeletion = true ∨ e.isDying = true
      · have helig : aoeEligible px py br t ((i, e) : ℕ × EnemyE) = false := by
          simp [aoeEligible, hskip]
        simp only [aoeHitEnemies, if_pos hskip]
        have IH := aoeHitEnemies_spec fx px py br t dmg rest pw harmr
        simp [List.filter_cons, helig, IH.1]
        exact IH.2
      · by_cases hcol : circleHit (e.x - px) (e.y - py) (br + e.size) = true
        · have helig : aoeEligible px py br t ((i, e) : ℕ × EnemyE) = true := by
            simp [aoeEligible, hskip, hcol]
          have happ := hitEnemy_applied_armorless fx e dmg pw.world he.1 he.2
          simp only [aoeHitEnemies, if_neg hskip, hcol, if_pos]
          split_ifs with hk
          · have IH := aoeHitEnemies_spec fx px py br t dmg rest
              (onEnemyKillModel i (hitEnemy fx e dmg pw.world).enemy
                { pw with world := (hitEnemy fx e dmg pw.world).world,
                          damageLog := pw.damageLog ++ [(i, (hitEnemy fx e dmg pw.world).applied)] })
              harmr
            refine ⟨?_, ?_⟩
            · rw [IH.1]
              simp [List.filter_cons, helig, onEnemyKillModel, happ]
            · obtain ⟨ks, hks1, hks2⟩ := IH.2
              refine ⟨i :: ks, ?_, ?_⟩
              · rw [hks1]
                simp [onEnemyKillModel]
              · simpa [List.filter_cons, helig] using List.Sublist.cons₂ i hks2
          · have IH := aoeHitEnemies_spec fx px py br t dmg rest
              { pw with world := (hitEnemy fx e dmg pw.world).world,
                        damageLog := pw.damageLog ++ [(i, (hitEnemy fx e dmg pw.world).applied)] }
              harmr
            refine ⟨?_, ?_⟩
            · rw [IH.1]
              simp [List.filter_cons, helig, happ]
            · obtain ⟨ks, hks1, hks2⟩ := IH.2
              refine ⟨ks, by simpa using hks1, ?_⟩
              simpa [List.filter_cons, helig] using List.Sublist.cons i hks2
        · have helig : aoeEligible px py br t ((i, e) : ℕ × EnemyE) = false := by
            simp [aoeEligible, hcol]
          simp only [aoeHitEnemies, if_neg hskip, hcol, if_neg]
          have IH := aoeHitEnemies_spec fx px py br t dmg rest pw harmr
          simp [List.filter_cons, helig, IH.1]
          exact IH.2


/-- C7 (amended): when a charged (blast-radius) projectile resolves a hit it
is marked for deletion and deals its direct damage (the `r1` roll, floored
through the multiplier when it is not 1) to its target; the splash pass rolls
`getDamage` a SECOND time (draw `r2`) and deals half of that fresh roll — not
half of the direct-hit roll — to every other live enemy within
`blastRadius + size` of the impact point; each kill is reported to the
kill/currency path exactly once (the kill-event list is duplicate-free), the
primary target being reported only by the direct hit and never by the splash
pass. -/
theorem charged_splash_fresh_roll (p : Proj) (t : ℕ) (mult : ℚ)
    (cp : CombatParams) (r1 r2 : ℚ) (es : List (ℕ × EnemyE)) (pw : ProjWorld)
    (hnp : p.piercing = false) (hnb : p.bouncesLeft ≤ 0) (hbr : 0 < p.blastRadius)
    (harm : ∀ x ∈ es, (x : ℕ × EnemyE).2.armor = 0 ∧ x.2.isEpicBossShielded = false)
    (ht : t ∈ es.map Prod.fst) (hids : (es.map Prod.fst).Nodup)
    (hlog : pw.damageLog = []) (hke : pw.killEvents = []) :
    (hitWithMultiplier p t mult cp r1 r2 es pw).1.markedForDeletion = true ∧
    (hitWithMultiplier p t mult cp r1 r2 es pw).2.2.damageLog
      = (t, (if mult ≠ 1 then
          ((⌊(getDamage (if p.isAuto then Source.auto else Source.click)
              cp.u cp.perms cp.fx cp.prestigeCurrency r1).1 * mult⌋ : ℤ) : ℚ)
          else (getDamage (if p.isAuto then Source.auto else Source.click)
              cp.u cp.perms cp.fx cp.prestigeCurrency r1).1))
        :: (es.filter (aoeEligible p.x p.y p.blastRadius t)).map
             (fun x => (x.1, (getDamage (if p.isAuto then Source.auto else Source.click)
                 cp.u cp.perms cp.fx cp.prestigeCurrency r2).1 * (1/2))) ∧
    (hitWithMultiplier p t mult cp r1 r2 es pw).2.2.killEvents.Nodup ∧
    (∃ (b : Bool) (ks : List ℕ),
      (hitWithMultiplier p t mult cp r1 r2 es pw).2.2.killEvents
        = (if b then [t] else []) ++ ks ∧
      ks.Sublist ((es.filter (aoeEligible p.x p.y p.blastRadius t)).map Prod.fst)) := by
  have hq : ∀ x : ℕ × EnemyE, x.1 = t → aoeEligible p.x p.y p.blastRadius t x = false := by
    intro x hx
    simp [aoeEligible, hx]
  set src := if p.isAuto then Source.auto else Source.click with hsrc
  set dmgInfo : DamageInfo :=
    if mult ≠ 1 then
      ⟨((⌊(getDamage src cp.u cp.perms cp.fx cp.prestigeCurrency r1).1 * mult⌋ : ℤ) : ℚ),
        (getDamage src cp.u cp.perms cp.fx cp.prestigeCurrency r1).2⟩
    else ⟨(getDamage src cp.u cp.perms cp.fx cp.prestigeCurrency r1).1,
      (getDamage src cp.u cp.perms cp.fx cp.prestigeCurrency r1).2⟩ with hdmg
  have hdir := hitTargetById_log cp.fx t dmgInfo es pw harm ht
  have hdirk := hitTargetById_kills cp.fx t dmgInfo es pw
  have hdirf := hitTargetById_filter cp.fx t dmgInfo
    (aoeEligible p.x p.y p.blastRadius t) hq es pw
  have harm2 : ∀ x ∈ (hitTargetById cp.fx t dmgInfo es pw).1,
      (x : ℕ × EnemyE).2.armor = 0 ∧ x.2.isEpicBossShielded = false := hdir.2.2
  have haoe := aoeHitEnemies_spec cp.fx p.x p.y p.blastRadius t
    ⟨(getDamage src cp.u cp.perms cp.fx cp.prestigeCurrency r2).1 * (1/2), false⟩
    (hitTargetById cp.fx t dmgInfo es pw).1 (hitTargetById cp.fx t dmgInfo es pw).2.1 harm2
  have hres : hitWithMultiplier p t mult cp r1 r2 es pw
      = ({ p with markedForDeletion := true },
         (aoeHitEnemies cp.fx p.x p.y p.blastRadius t
           ⟨(getDamage src cp.u cp.perms cp.fx cp.prestigeCurrency r2).1 * (1/2), false⟩
           (hitTargetById cp.fx t dmgInfo es pw).1
           (hitTargetById cp.fx t dmgInfo es pw).2.1).1,
         (aoeHitEnemies cp.fx p.x p.y p.blastRadius t
           ⟨(getDamage src cp.u cp.perms cp.fx cp.prestigeCurrency r2).1 * (1/2), false⟩
           (hitTargetById cp.fx t dmgInfo es pw).1
           (hitTargetById cp.fx t dmgInfo es pw).2.1).2) := by
    simp only [hitWithMultiplier, ← hsrc, ← hdmg]
    rw [if_pos (⟨hnp, hnb⟩ : p.piercing = false ∧ p.bouncesLeft ≤ 0)]
    rw [if_pos (show ({ p with markedForDeletion := true } : Proj).blastRadius > 0 from hbr)]
  rw [hres]
  refine ⟨rfl, ?_, ?_, ?_⟩
  · rw [haoe.1, hdir.1, hdirf, hlog]
    simp only [hdmg]
    split_ifs <;> simp
  · obtain ⟨ks, hks1, hks2⟩ := haoe.2
    rw [hks1, hdirk, hke]
    have hfsub : ((es.filter (aoeEligible p.x p.y p.blastRadius t)).map Prod.fst).Sublist
        (es.map Prod.fst) := List.Sublist.map Prod.fst es.filter_sublist
    have hksnd : ks.Nodup := ((hids.sublist hfsub).sublist (hdirf ▸ hks2))
    have hkst : t ∉ ks := by
      intro hmem
      have : t ∈ (es.filter (aoeEligible p.x p.y p.blastRadius t)).map Prod.fst :=
        (hdirf ▸ hks2).subset hmem
      rcases List.mem_map.mp this with ⟨x, hxmem, hxt⟩
      have := List.of_mem_filter hxmem
      rw [hq x hxt] at this
      exact absurd this (by simp)
    split_ifs with hk
    · simpa using ⟨hkst, hksnd⟩
    · simpa using hksnd
  · obtain ⟨ks, hks1, hks2⟩ := haoe.2
    exact ⟨(hitTargetById cp.fx t dmgInfo es pw).2.2, ks,
      by rw [hks1, hdirk, hke]; simp, hdirf ▸ hks2⟩


/-- C7 counterexample: with 50% crit chance, a direct roll that crits
(draw 0.1: damage 10 × 2.5 = 25) and a splash roll that does not (draw 0.9:
damage 10), the bystander takes 5 — half of the fresh second roll — and not
half of the direct-hit roll (12.5). -/
theorem charged_splash_counterexample :
    (hitWithMultiplier chargedProj 0 1 chargedCp (1/10) (9/10) chargedTargets pwInit).2.2.damageLog
      = [(0, 25), (1, 5)] ∧ ((5 : ℚ) ≠ 25 * (1/2)) := by
  norm_num [hitWithMultiplier, hitTargetById, aoeHitEnemies, getDamage, hitEnemy, circleHit,
    onEnemyKillModel, chargedProj, chargedTargets, chargedCp, pathEnemy, noSkillFx, pwInit,
    lowHpWorld, CRIT_DAMAGE_MULTIPLIER, PRESTIGE_MULT_PER_BYTE]

/-- Witness for `charged_splash_fresh_roll` at the concrete charged shot. -/
theorem charged_splash_fresh_roll_witness :
    chargedProj.piercing = false ∧
    (hitWithMultiplier chargedProj 0 1 chargedCp (1/10) (9/10) chargedTargets pwInit).1.markedForDeletion
      = true ∧
    (hitWithMultiplier chargedProj 0 1 chargedCp (1/10) (9/10) chargedTargets pwInit).2.2.killEvents.Nodup :=
  ⟨rfl,
   (charged_splash_fresh_roll chargedProj 0 1 chargedCp (1/10) (9/10) chargedTargets pwInit
      rfl (by norm_num [chargedProj]) (by norm_num [chargedProj])
      (by intro x hx; fin_cases hx <;> simp [pathEnemy])
      (by simp [chargedTargets]) (by simp [chargedTargets]) rfl rfl).1,
   (charged_splash_fresh_roll chargedProj 0 1 chargedCp (1/10) (9/10) chargedTargets pwInit
      rfl (by norm_num [chargedProj]) (by norm_num [chargedProj])
      (by intro x hx; fin_cases hx <;> simp [pathEnemy])
      (by simp [chargedTargets]) (by simp [chargedTargets]) rfl rfl).2.2.1⟩



/-! ## Claims C5 and C8: skill tree purchasing and persistence -/

/-- C5 (amended): purchasing a node whose prerequisites are unmet fails with
the `PrerequisitesNotMet` structured reason regardless of available currency
WHENEVER the node's tier is still below its max tier — the max-tier check
runs first, so a node already at max tier (reachable by loading a corrupt
save) fails with `MaxTierReached` instead; `canPurchaseNode` is a total
function returning a structured reason (nothing is thrown), and every failed
purchase leaves the node states and the caller's currency unchanged. -/
theorem purchase_prereq_gate :
    (∀ (st : SkillState) (nodeId : String) (pc : ℚ) (node : SkillNodeDef) (ns : NodeState),
      SKILL_TREE_NODES.find? (fun n => n.id = nodeId) = some node →
      getNodeState st nodeId = some ns →
      ns.tier < node.maxTier →
      checkPrerequisites st nodeId = false →
      canPurchaseNode st nodeId pc = .no .prerequisitesNotMet) ∧
    (∀ (st : SkillState) (nodeId : String) (pc : ℚ) (r : PurchaseReason),
      canPurchaseNode st nodeId pc = .no r →
      purchaseNode st nodeId pc = (st, pc, none)) := by
  constructor
  · intro st nodeId pc node ns hfind hstate htier hpre
    simp only [canPurchaseNode, hfind, hstate]
    rw [if_neg (by omega : ¬ ns.tier ≥ node.maxTier)]
    rw [if_pos hpre]
  · intro st nodeId pc r h
    simp only [purchaseNode, h]

/-- Witness for `purchase_prereq_gate`: on a fresh tree, `pulse_strength`
(prerequisite `combat_core` still at tier 0) fails with
`PrerequisitesNotMet` even with 1000000 currency. -/
theorem purchase_prereq_gate_witness :
    checkPrerequisites initSkillTreeSystem "pulse_strength" = false ∧
    canPurchaseNode initSkillTreeSystem "pulse_strength" 1000000
      = CanPurchase.no PurchaseReason.prerequisitesNotMet :=
  ⟨by decide,
   purchase_prereq_gate.1 initSkillTreeSystem "pulse_strength" 1000000
     ⟨"pulse_strength", 5, [1, 2, 4, 8, 15], ["combat_core"]⟩ ⟨0, false⟩
     (by decide) (by decide) (by decide) (by decide)⟩

/-- C5 counterexample: after loading a corrupt save that puts
`pulse_strength` at max tier 5 while its prerequisite is unmet, purchase
fails with `MaxTierReached`, not `PrerequisitesNotMet` — the claim's
"for every node whose prerequisites are unmet" fails at max tier. -/
theorem purchase_prereq_gate_counterexample :
    checkPrerequisites (loadSkillTreeSaveData [⟨"pulse_strength", 5, true⟩]) "pulse_strength"
      = false ∧
    canPurchaseNode (loadSkillTreeSaveData [⟨"pulse_strength", 5, true⟩]) "pulse_strength" 1000000
      = CanPurchase.no PurchaseReason.maxTierReached ∧
    PurchaseReason.maxTierReached ≠ PurchaseReason.prerequisitesNotMet :=
  ⟨by decide, by decide, by decide⟩

lemma getNodeState_setNodeState_ne (id id' : String) (ns : NodeState) (h : id ≠ id') :
    ∀ st : SkillState, getNodeState (setNodeState st id ns) id' = getNodeState st id'
  | [] => rfl
  | x :: rest => by
      have IH := getNodeState_setNodeState_ne id id' ns h rest
      show getNodeState ((if x.1 = id then (x.1, ns) else x) :: setNodeState rest id ns) id'
          = getNodeState (x :: rest) id'
      by_cases hx : x.1 = id
      · rw [if_pos hx]
        unfold getNodeState
        rw [List.find?_cons_of_neg _ (by simp [hx, h]),
            List.find?_cons_of_neg _ (by simp [hx, h])]
        exact IH
      · rw [if_neg hx]
        by_cases hx2 : x.1 = id'
        · unfold getNodeState
          rw [List.find?_cons_of_pos _ (by simp [hx2]),
              List.find?_cons_of_pos _ (by simp [hx2])]
        · unfold getNodeState
          rw [List.find?_cons_of_neg _ (by simp [hx2]),
              List.find?_cons_of_neg _ (by simp [hx2])]
          exact IH

lemma load_foldl_preserves_central (data : List SavedNode)
    (h : ∀ sd ∈ data, sd.id ≠ "central_core") :
    ∀ st : SkillState,
      getNodeState
        (data.foldl (fun st saved =>
          match getNodeState st saved.id with
          | some _ => setNodeState st saved.id ⟨saved.tier, saved.unlocked⟩
          | none => st) st) "central_core"
      = getNodeState st "central_core" := by
  induction data with
  | nil => intro st; rfl
  | cons sd rest IH =>
      intro st
      have hsd : sd.id ≠ "central_core" := h sd (by simp)
      have hrest : ∀ x ∈ rest, x.id ≠ "central_core" := fun x hx => h x (by simp [hx])
      simp only [List.foldl_cons]
      rw [IH hrest]
      cases hst : getNodeState st sd.id with
      | none => rfl
      | some ns => exact getNodeState_setNodeState_ne sd.id "central_core" _ hsd st

lemma unlockConnectedNodes_preserves_central (st : SkillState) :
    getNodeState (unlockConnectedNodes st) "central_core"
      = getNodeState st "central_core" := by
  have key : ∀ (nodes : List SkillNodeDef), (∀ n ∈ nodes, n.id ≠ "central_core") →
      ∀ st : SkillState,
      getNodeState
        (nodes.foldl (fun st node =>
          match getNodeState st node.id with
          | some ns =>
              if ns.unlocked = false && checkPrerequisites st node.id then
                setNodeState st node.id { ns with unlocked := true }
              else st
          | none => st) st) "central_core"
        = getNodeState st "central_core" := by
    intro nodes
    induction nodes with
    | nil => intro _ st; rfl
    | cons n rest IH =>
        intro h st
        have hn : n.id ≠ "central_core" := h n (by simp)
        have hrest : ∀ x ∈ rest, x.id ≠ "central_core" := fun x hx => h x (by simp [hx])
        simp only [List.foldl_cons]
        rw [IH hrest]
        cases hst : getNodeState st n.id with
        | none => rfl
        | some ns =>
            dsimp only
            split_ifs with hcond
            · exact getNodeState_setNodeState_ne n.id "central_core" _ hn st
            · rfl
  exact key SKILL_TREE_NODES (by decide) st

/-- C8 (amended): loading re-initializes all nodes to defaults, applies the
saved tiers AND saved unlocked flags, then re-runs the unlock propagation
pass over the CATALOG nodes (stale locked flags on catalog nodes with met
prerequisites self-heal; stale unlocked=true flags are kept); the
root/central node is unlocked at tier 1 after any load whose record list
contains no entry for it — but the propagation pass never touches
"central_core" (it is not a catalog node), so a saved central record
overrides its tier and unlocked flag unhealed. -/
theorem load_reinit_and_central (data : List SavedNode)
    (h : ∀ sd ∈ data, sd.id ≠ "central_core") :
    loadSkillTreeSaveData data
      = unlockConnectedNodes (data.foldl (fun st saved =>
          match getNodeState st saved.id with
          | some _ => setNodeState st saved.id ⟨saved.tier, saved.unlocked⟩
          | none => st) initSkillTreeSystem) ∧
    getNodeState (loadSkillTreeSaveData data) "central_core" = some ⟨1, true⟩ := by
  refine ⟨rfl, ?_⟩
  show getNodeState (unlockConnectedNodes _) "central_core" = some ⟨1, true⟩
  rw [unlockConnectedNodes_preserves_central, load_foldl_preserves_central data h]
  decide

/-- Witness for `load_reinit_and_central` on a save with no central record. -/
theorem load_reinit_and_central_witness :
    (∀ sd ∈ ([⟨"pulse_strength", 2, true⟩] : List SavedNode), sd.id ≠ "central_core") ∧
    getNodeState (loadSkillTreeSaveData [⟨"pulse_strength", 2, true⟩]) "central_core"
      = some ⟨1, true⟩ :=
  ⟨by decide, (load_reinit_and_central [⟨"pulse_strength", 2, true⟩] (by decide)).2⟩

/-- C8 counterexample: loading the record list
`[{id: "central_core", tier: 0, unlocked: false}]` leaves the central node
locked at tier 0 — the claim's "after any load the root/central node is
unlocked and at tier 1" is false. -/
theorem load_central_core_counterexample :
    getNodeState (loadSkillTreeSaveData [⟨"central_core", 0, false⟩]) "central_core"
      = some ⟨0, false⟩ ∧
    (some (⟨0, false⟩ : NodeState) ≠ some (⟨1, true⟩ : NodeState)) :=
  ⟨by decide, by decide⟩


/-! ## Claim C9: particle pool capacity -/

lemma acquire_length {α : Type} :
    ∀ (slots : List (Bool × α)) (r : ℕ × List (Bool × α)),
      acquire slots = some r → r.2.length = slots.length
  | [], r => by simp [acquire]
  | (active, v) :: rest, r => by
      simp only [acquire]
      split_ifs with ha
      · intro h
        injection h with h2
        rw [← h2]
        simp
      · cases hr : acquire rest with
        | none =>
            intro h
            simp at h
        | some r2 =>
            have IH := acquire_length rest r2 hr
            intro h
            simp only [Option.map_some'] at h
            injection h with h2
            rw [← h2]
            simp [IH]

lemma acquire_full {α : Type} :
    ∀ slots : List (Bool × α), (∀ x ∈ slots, (x : Bool × α).1 = true) →
      acquire slots = none
  | [], _ => rfl
  | (active, v) :: rest, h => by
      have ha : active = true := h (active, v) (by simp)
      simp only [acquire, ha]
      rw [acquire_full rest (fun x hx => h x (List.mem_cons_of_mem _ hx))]
      simp

lemma emit_length {α : Type} :
    ∀ (count : ℕ) (fresh : ℕ → α) (slots : List (Bool × α)),
      (emit fresh count slots).length = slots.length
  | 0, fresh, slots => rfl
  | n + 1, fresh, slots => by
      simp only [emit]
      cases hr : acquire slots with
      | none => rfl
      | some r =>
          rw [emit_length n]
          simp [acquire_length slots r hr]

/-- C9 (confirmed): the particle pool enforces its capacity ceiling — under
any sequence of emissions the slot array never grows, so the number of
active particles can never exceed the pool size; and an emission arriving
when every slot is active is a silent no-op: no error, no growth, the
existing particles untouched. -/
theorem particle_pool_capacity {α : Type} :
    (∀ (reqs : List ((ℕ → α) × ℕ)) (slots : List (Bool × α)),
      (reqs.foldl (fun s r => emit r.1 r.2 s) slots).length = slots.length ∧
      activeCount (reqs.foldl (fun s r => emit r.1 r.2 s) slots) ≤ slots.length) ∧
    (∀ (fresh : ℕ → α) (count : ℕ) (slots : List (Bool × α)),
      (∀ x ∈ slots, (x : Bool × α).1 = true) → emit fresh count slots = slots) := by
  constructor
  · intro reqs
    induction reqs with
    | nil =>
        intro slots
        exact ⟨rfl, List.length_filter_le _ _⟩
    | cons r rest IH =>
        intro slots
        have h1 := IH (emit r.1 r.2 slots)
        simp only [List.foldl_cons]
        exact ⟨by rw [h1.1, emit_length],
          le_trans h1.2 (le_of_eq (emit_length _ _ _))⟩
  · intro fresh count slots hfull
    cases count with
    | zero => rfl
    | succ n =>
        simp only [emit]
        rw [acquire_full slots hfull]

/-- Witness for `particle_pool_capacity`: an exhausted two-slot pool drops
an emission of three particles unchanged. -/
theorem particle_pool_capacity_witness :
    (∀ x ∈ ([(true, (0 : ℚ)), (true, 1)] : List (Bool × ℚ)), (x : Bool × ℚ).1 = true) ∧
    emit (fun _ => (5 : ℚ)) 3 [(true, 0), (true, 1)] = [(true, 0), (true, 1)] :=
  ⟨by decide,
   particle_pool_capacity.2 (fun _ => (5 : ℚ)) 3 [(true, 0), (true, 1)] (by decide)⟩


end NeonCore
